import Mathlib

/-!
Verification of the GitHub stargazers fetcher (`github-stargazers.js`).

The development shallow-embeds the script's core functions — `makeRequest`'s
response classification and retry loop, `getStargazers`' pagination driver,
`parseTime` / `getTimeInTimezone` / `filterAndSortStargazers`, the command-line
option parsing loop, `enrichStargazersData` / `getDetailedUserInfo`, and
`generateStargazersReport` — as executable Lean definitions, and proves the
specified properties about them.

Conventions: JS numbers are `Int`/`Nat`; instants (`Date` values) are epoch
milliseconds as `Int`; `null`/`undefined` are `Option.none`; a JS value that
`JSON.parse` failed to produce is `none`; promise rejection is `Except.error`.
Environment-dependent primitives (the local-timezone calendar used by
`new Date(...).setHours(0,0,0,0)` and the `Intl` wall-clock conversion) are
abstracted as explicit parameters.
-/

namespace GithubStargazers

/-! ## Data model -/

/-- The `user` object nested in a stargazers-page item. -/
structure GhUser where
  login : String
  id : Nat
  html_url : String
  utype : Option String
  deriving DecidableEq, Repr

/-- One item of a stargazers page: `{ user, starred_at }`.
`starred_at` is the star instant in epoch milliseconds. -/
structure StarItem where
  user : GhUser
  starred_at : Int
  deriving DecidableEq, Repr

/-- A flattened stargazer record (`{...item.user, starred_at: item.starred_at}`). -/
structure Stargazer where
  login : String
  id : Nat
  html_url : String
  utype : Option String
  starred_at : Int
  deriving DecidableEq, Repr

/-- `item => ({ ...item.user, starred_at: item.starred_at })` from `getStargazers`. -/
def flattenItem (it : StarItem) : Stargazer :=
  { login := it.user.login, id := it.user.id, html_url := it.user.html_url,
    utype := it.user.utype, starred_at := it.starred_at }

/-! ## Pagination driver (`getStargazers`) -/

/-- Default `STARGAZERS_REPO_OWNER`/`STARGAZERS_REPO_NAME` configuration. -/
def githubApiUrl : String :=
  "https://api.github.com/repos/SolaceLabs/solace-agent-mesh/stargazers"

/-- The URL requested for page `n`: fixed page size 100. -/
def pageUrl (n : Nat) : String :=
  githubApiUrl ++ "?page=" ++ toString n ++ "&per_page=100"

/-- Terminal state of the pagination loop (it can only end by an empty page
or by reaching the limit; executor errors propagate out of the loop). -/
inductive PagEnd where
  | exhausted
  | limitReached
  deriving DecidableEq, Repr

/-- Result of a `getStargazers` run: the accumulated records, the list of URLs
requested (in order), and how the loop terminated. -/
structure FetchResult where
  records : List Stargazer
  urls : List String
  pagEnd : PagEnd
  deriving DecidableEq, Repr

/-- JS `xs.slice(0, l)` for an integer `l` (negative `l` counts from the end). -/
def jsSliceTo (l : Int) (xs : List Stargazer) : List Stargazer :=
  if 0 ≤ l then xs.take l.toNat else xs.take (xs.length - (-l).toNat)

/-- `if (limit && allStargazers.length >= limit)`: JS truthiness of `limit`
plus the length check. -/
def limitHit (limit : Option Int) (n : Nat) : Bool :=
  match limit with
  | some l => l != 0 && l ≤ (n : Int)
  | none => false

/-- `if (allStargazers.length > limit) allStargazers = allStargazers.slice(0, limit)`. -/
def trimToLimit (limit : Option Int) (xs : List Stargazer) : List Stargazer :=
  match limit with
  | some l => if l < (xs.length : Int) then jsSliceTo l xs else xs
  | none => xs

/-- The `while (hasMorePages)` loop of `getStargazers`, driven by the list of
successive page responses (`pages`); once the supplied responses run out the
server is exhausted, i.e. the next request returns an empty page. -/
def getStargazersLoop :
    List (List StarItem) → Option Int → Nat → List Stargazer → List String → FetchResult
  | [], _, page, acc, urls =>
    { records := acc, urls := urls ++ [pageUrl page], pagEnd := .exhausted }
  | p :: rest, limit, page, acc, urls =>
    let urls' := urls ++ [pageUrl page]
    if p.length = 0 then
      { records := acc, urls := urls', pagEnd := .exhausted }
    else
      let acc' := acc ++ p.map flattenItem
      if limitHit limit acc'.length then
        { records := trimToLimit limit acc', urls := urls', pagEnd := .limitReached }
      else
        getStargazersLoop rest limit (page + 1) acc' urls'

/-- `getStargazers(limit)`: starts at page 1 with an empty accumulator. -/
def getStargazers (pages : List (List StarItem)) (limit : Option Int) : FetchResult :=
  getStargazersLoop pages limit 1 [] []

/-- The items the loop can ever see: the pages before the first empty page,
flattened in order. -/
def liveItems : List (List StarItem) → List StarItem
  | [] => []
  | p :: rest => if p.length = 0 then [] else p ++ liveItems rest

/-- Number of page requests issued when no limit is set: one per non-empty
leading page, plus the final empty-page request. -/
def numRequests : List (List StarItem) → Nat
  | [] => 1
  | p :: rest => if p.length = 0 then 1 else numRequests rest + 1

/-- Number of page requests issued under limit `l`, having already
accumulated `accLen` records. -/
def numRequestsLimited (l : Int) : Nat → List (List StarItem) → Nat
  | _, [] => 1
  | accLen, p :: rest =>
    if p.length = 0 then 1
    else if l ≤ ((accLen + p.length : Nat) : Int) then 1
    else numRequestsLimited l (accLen + p.length) rest + 1

/-- URLs for `k` consecutive pages starting at page `start`. -/
def urlsFrom (start k : Nat) : List String :=
  (List.range k).map (fun i => pageUrl (start + i))

/-- A demo stargazers-page item for the scenario computations. -/
def demoItem : StarItem :=
  { user := { login := "octocat", id := 1,
              html_url := "https://github.com/octocat", utype := some "User" },
    starred_at := 0 }

/-- Scenario pages: 100/100/37 items. -/
def scenarioPages3 : List (List StarItem) :=
  [List.replicate 100 demoItem, List.replicate 100 demoItem, List.replicate 37 demoItem]

/-- Scenario pages: 100/100 items. -/
def scenarioPages2 : List (List StarItem) :=
  [List.replicate 100 demoItem, List.replicate 100 demoItem]

/-! ## HTTP executor and rate-limit/SAML handler (`makeRequest`) -/

/-- `Math.ceil(a / b)` for integers (`b > 0`): negated floor division of the
negation. -/
def jsCeilDiv (a b : Int) : Int := -((-a).fdiv b)

/-- `s.includes(pat)` on JS strings. -/
def jsIncludes (s pat : String) : Bool := decide (List.IsInfix pat.data s.data)

/-- The JSON body of a response, as far as `makeRequest` inspects it: the
optional `message` field checked by the SAML branch.  A body that
`JSON.parse` rejects is represented by `none` at the use site. -/
structure BodyJson where
  message : Option String
  deriving DecidableEq, Repr

/-- One HTTP response as `makeRequest`'s `res.on('end')` handler sees it.
`rlRemaining` is the raw `x-ratelimit-remaining` header; `rlResetSec` is the
`x-ratelimit-reset` header already parsed to epoch seconds; `nowMs` is the
value of `new Date()` (epoch ms) when the handler runs; `raw` is the body
text and `parsed` its `JSON.parse` result (`none` on parse failure). -/
structure HttpResponse where
  statusCode : Nat
  rlRemaining : Option String
  rlResetSec : Int
  nowMs : Int
  raw : String
  parsed : Option BodyJson
  deriving DecidableEq, Repr

/-- The ways `makeRequest` can settle a single attempt. -/
inductive ReqError where
  | parseFail (body : String)
  | saml (message : String)
  | httpError (status : Nat) (body : String)
  | transport (message : String)
  deriving DecidableEq, Repr

/-- What the `res.on('end')` handler decides for one response: resolve with
the parsed data, schedule a retry after `waitSeconds`, or reject. -/
inductive StepOutcome where
  | resolve (data : BodyJson)
  | retry (waitSeconds : Int)
  | reject (e : ReqError)
  deriving DecidableEq, Repr

/-- The body of `res.on('end', ...)` in `makeRequest`: 2xx resolves with the
parsed JSON (or rejects with a parse error); 403 with
`x-ratelimit-remaining === '0'` schedules a retry after
`Math.ceil((resetTime - now) / 1000) + 60` seconds; other 403s reject with a
SAML-enforcement error when the body's `message` contains
"SAML enforcement", else with `HTTP <status>: <body>`; all remaining
statuses reject with `HTTP <status>: <body>`. -/
def classify (r : HttpResponse) : StepOutcome :=
  if 200 ≤ r.statusCode ∧ r.statusCode < 300 then
    match r.parsed with
    | some j => .resolve j
    | none => .reject (.parseFail r.raw)
  else if r.statusCode = 403 then
    if r.rlRemaining = some "0" then
      .retry (jsCeilDiv (r.rlResetSec * 1000 - r.nowMs) 1000 + 60)
    else
      match r.parsed with
      | some j =>
        match j.message with
        | some m =>
          if jsIncludes m "SAML enforcement" then .reject (.saml m)
          else .reject (.httpError r.statusCode r.raw)
        | none => .reject (.httpError r.statusCode r.raw)
      | none => .reject (.httpError r.statusCode r.raw)
  else .reject (.httpError r.statusCode r.raw)

/-- One event on the wire for a `makeRequest` call: either a response or a
transport error (`req.on('error')`). -/
inductive WireEvent where
  | response (r : HttpResponse)
  | networkError (message : String)
  deriving DecidableEq, Repr

/-- `makeRequest` as a function of the successive wire events its (re)issued
requests receive: the rate-limit branch recursively reissues the request
(consuming the next event) and only then settles; the result is the settled
promise value together with the total seconds waited in rate-limit delays.
`none` means the supplied trace ended before the promise settled. -/
def makeRequestTrace : List WireEvent → Option (Except ReqError BodyJson × Int)
  | [] => none
  | .networkError m :: _ => some (.error (.transport m), 0)
  | .response r :: rest =>
    match classify r with
    | .resolve d => some (.ok d, 0)
    | .reject e => some (.error e, 0)
    | .retry w => (makeRequestTrace rest).map (fun p => (p.1, w + p.2))

/-- A rate-limited response whose reset is 5 seconds in the future. -/
def rateLimitedResp : HttpResponse :=
  { statusCode := 403, rlRemaining := some "0", rlResetSec := 5, nowMs := 0,
    raw := "", parsed := none }

/-- A successful response carrying an empty JSON body. -/
def okResp : HttpResponse :=
  { statusCode := 200, rlRemaining := some "4999", rlResetSec := 0, nowMs := 5000,
    raw := "[]", parsed := some { message := none } }

/-- A 403 response carrying a SAML-enforcement message, with remaining quota. -/
def samlResp : HttpResponse :=
  { statusCode := 403, rlRemaining := some "4999", rlResetSec := 0, nowMs := 0,
    raw := "saml body",
    parsed := some { message := some "Resource protected by organization SAML enforcement." } }

/-- A plain 403 response whose message does not mention SAML. -/
def plain403Resp : HttpResponse :=
  { statusCode := 403, rlRemaining := some "4999", rlResetSec := 0, nowMs := 0,
    raw := "forbidden body", parsed := some { message := some "Forbidden" } }

/-! ## Command-line options and the filter/sort stage -/

/-- The `options` object built by the argument-parsing loop. -/
structure CliOptions where
  sort : String
  date : Option String
  fromT : Option String
  toT : Option String
  timezone : Option String
  limit : Option Int
  help : Bool
  deriving DecidableEq, Repr

/-- The initial `options` literal: `sort: 'desc'`, everything else unset. -/
def defaultOptions : CliOptions :=
  { sort := "desc", date := none, fromT := none, toT := none,
    timezone := none, limit := none, help := false }

/-- JS whitespace skipped by `parseInt`. -/
def jsWhitespace (c : Char) : Bool :=
  c == ' ' || c == '\t' || c == '\n' || c == '\r'

/-- Decimal value of a digit run. -/
def digitsToNat (ds : List Char) : Nat :=
  ds.foldl (fun acc c => acc * 10 + (c.toNat - '0'.toNat)) 0

/-- Longest leading digit run, `none` when there is none. -/
def parseDigits (cs : List Char) : Option Nat :=
  let ds := cs.takeWhile (fun c => c.isDigit)
  if ds.isEmpty then none else some (digitsToNat ds)

/-- JS `parseInt(s, 10)`: skip whitespace, optional sign, longest digit
prefix; `none` models `NaN`. -/
def jsParseInt (s : String) : Option Int :=
  match s.data.dropWhile jsWhitespace with
  | '-' :: cs => (parseDigits cs).map (fun n => -(n : Int))
  | '+' :: cs => (parseDigits cs).map (fun n => (n : Int))
  | cs => (parseDigits cs).map (fun n => (n : Int))

/-- Split a character list on a separator, JS `String.prototype.split` style
(adjacent separators and string edges produce empty groups). -/
def splitChar (sep : Char) : List Char → List (List Char)
  | [] => [[]]
  | c :: cs =>
    if c = sep then [] :: splitChar sep cs
    else
      match splitChar sep cs with
      | [] => [[c]]
      | g :: gs => (c :: g) :: gs

/-- `s.split(':')` on a JS string. -/
def jsSplitColon (s : String) : List String :=
  (splitChar ':' s.data).map (fun cs => String.mk cs)

/-- `parseTime`: split `HH:MM[:SS]` on `:` and return seconds since midnight
(`hours*3600 + minutes*60 + seconds`); `none` models a `NaN` result. -/
def parseTime (s : String) : Option Int :=
  let parts := jsSplitColon s
  let hours := jsParseInt (parts.getD 0 "")
  let minutes := jsParseInt (parts.getD 1 "")
  let seconds :=
    match parts.get? 2 with
    | some x => if x = "" then some 0 else jsParseInt x
    | none => some 0
  match hours, minutes, seconds with
  | some h, some m, some sec => some (h * 3600 + m * 60 + sec)
  | _, _, _ => none

/-- The wall-clock components `getTimeInTimezone` returns. -/
structure TimeInfo where
  hours : Nat
  minutes : Nat
  seconds : Nat
  totalSeconds : Nat
  deriving DecidableEq, Repr

/-- The host environment the date/time logic depends on: `localMidnight d` is
`new Date(d)` followed by `setHours(0,0,0,0)` (epoch ms of local midnight of
the date string); `addOneDay` is `setDate(getDate() + 1)` on such a midnight;
`zoneHMS tz instant` is the hour/minute/second wall-clock reading of the
instant in the requested zone (covering `getTimeInTimezone`'s `Intl` branch
and its local-timezone fallbacks). -/
structure TimeEnv where
  localMidnight : String → Int
  addOneDay : Int → Int
  zoneHMS : Option String → Int → Nat × Nat × Nat

/-- `getTimeInTimezone`: wall-clock components of the instant in the
requested zone, with `totalSeconds = hours*3600 + minutes*60 + seconds`
exactly as every branch of the source computes it. -/
def getTimeInTimezone (env : TimeEnv) (tz : Option String) (instant : Int) : TimeInfo :=
  let hms := env.zoneHMS tz instant
  { hours := hms.1, minutes := hms.2.1, seconds := hms.2.2,
    totalSeconds := hms.1 * 3600 + hms.2.1 * 60 + hms.2.2 }

/-- `a < b` on JS numbers where `b` may be `NaN` (`none`): any comparison
with `NaN` is false. -/
def numLt (a : Int) (b : Option Int) : Bool :=
  match b with
  | some v => a < v
  | none => false

/-- `a > b` on JS numbers where `b` may be `NaN` (`none`). -/
def numGt (a : Int) (b : Option Int) : Bool :=
  match b with
  | some v => v < a
  | none => false

/-- The body of the time-window filter predicate: starts from
`matches = true`, clears it when `fromTime` is non-null and
`starredTime < fromTime`, and when `toTime` is non-null and
`starredTime > toTime`. -/
def timeMatches (fromTime toTime : Option (Option Int)) (starredTime : Int) : Bool :=
  (match fromTime with
   | some f => !(numLt starredTime f)
   | none => true)
  && (match toTime with
      | some t => !(numGt starredTime t)
      | none => true)

/-- JS truthiness of an optional string: `null`/`undefined` and `""` are falsy. -/
def jsTruthyStr (o : Option String) : Option String :=
  match o with
  | some s => if s = "" then none else some s
  | none => none

/-- `options.from ? parseTime(options.from) : null` (outer `none` = null,
inner `none` = NaN). -/
def optParsedTime (o : Option String) : Option (Option Int) :=
  (jsTruthyStr o).map parseTime

/-- The sort comparator: `options.sort === 'asc' ? dateA - dateB : dateB - dateA`
expressed as the corresponding total `le` on `starred_at`. -/
def starLe (sortOpt : String) (a b : Stargazer) : Bool :=
  if sortOpt = "asc" then decide (a.starred_at ≤ b.starred_at)
  else decide (b.starred_at ≤ a.starred_at)

/-- `filterAndSortStargazers`: optional date filter (half-open day window,
compared on the record's own instant), optional time-of-day window filter
(inclusive, on the zone-converted seconds since midnight), then a stable
sort by `starred_at` in the requested direction. -/
def filterAndSortStargazers (env : TimeEnv) (stargazers : List Stargazer)
    (opts : CliOptions) : List Stargazer :=
  let filtered :=
    match opts.date with
    | some d =>
      let targetDate := env.localMidnight d
      let nextDate := env.addOneDay targetDate
      let byDate := stargazers.filter
        (fun (r : Stargazer) => decide (targetDate ≤ r.starred_at ∧ r.starred_at < nextDate))
      if (jsTruthyStr opts.fromT).isSome || (jsTruthyStr opts.toT).isSome then
        let fromTime := optParsedTime opts.fromT
        let toTime := optParsedTime opts.toT
        byDate.filter (fun (r : Stargazer) =>
          timeMatches fromTime toTime
            ((getTimeInTimezone env opts.timezone r.starred_at).totalSeconds : Int))
      else byDate
    | none => stargazers
  filtered.mergeSort (starLe opts.sort)

/-- A concrete host environment for witnesses: local midnight of any date
string is the epoch, a day is 86400000 ms, and the wall clock reads the
instant as a UTC time of day. -/
def demoEnv : TimeEnv :=
  { localMidnight := fun _ => 0,
    addOneDay := fun t => t + 86400000,
    zoneHMS := fun _ instant =>
      (((instant / 1000 / 3600) % 24).toNat,
       ((instant / 1000 / 60) % 60).toNat,
       ((instant / 1000) % 60).toNat) }

/-- A stargazer whose star instant is exactly 09:00:00 into the demo day —
on the `fromTime` boundary of the witness options. -/
def boundaryStargazer : Stargazer :=
  { login := "boundary", id := 2, html_url := "https://github.com/boundary",
    utype := some "User", starred_at := 32400000 }

/-- Options with date filter and a 09:00–17:00 time window in UTC. -/
def timeWindowOpts : CliOptions :=
  { sort := "desc", date := some "2025-02-26", fromT := some "09:00",
    toT := some "17:00", timezone := some "UTC", limit := none, help := false }

/-- Options with only a date filter. -/
def dateOnlyOpts : CliOptions :=
  { sort := "asc", date := some "2025-02-26", fromT := none, toT := none,
    timezone := none, limit := none, help := false }

/-! ## Argument parsing (the `for` loop over `process.argv.slice(2)`) -/

/-- The recognized option strings (`validOptions`). -/
def validOptions : List String :=
  ["--help", "-h", "--sort", "-s", "--date", "-d", "--from", "-f",
   "--to", "-t", "--timezone", "-z", "--limit", "-l"]

/-- `arg.startsWith('-')`. -/
def startsWithDash (s : String) : Bool :=
  match s.data with
  | '-' :: _ => true
  | _ => false

/-- The date regex `^\d{4}-\d{2}-\d{2}$`. -/
def isDateFormat (s : String) : Bool :=
  match s.data with
  | [a, b, c, d, '-', e, f, '-', g, h] =>
    a.isDigit && b.isDigit && c.isDigit && d.isDigit
      && e.isDigit && f.isDigit && g.isDigit && h.isDigit
  | _ => false

/-- The hour alternative `([0-1]?[0-9]|2[0-3])` of the time regex. -/
def isHourStr (s : String) : Bool :=
  match s.data with
  | [c] => c.isDigit
  | [c1, c2] =>
    ((c1 == '0' || c1 == '1') && c2.isDigit)
      || (c1 == '2' && (c2 == '0' || c2 == '1' || c2 == '2' || c2 == '3'))
  | _ => false

/-- The `[0-5][0-9]` groups of the time regex. -/
def isMinSecStr (s : String) : Bool :=
  match s.data with
  | [c1, c2] => ('0' ≤ c1 && c1 ≤ '5') && c2.isDigit
  | _ => false

/-- The time regex `^([0-1]?[0-9]|2[0-3]):[0-5][0-9](:[0-5][0-9])?$`. -/
def isTimeFormat (s : String) : Bool :=
  match jsSplitColon s with
  | [h, m] => isHourStr h && isMinSecStr m
  | [h, m, sec] => isHourStr h && isMinSecStr m && isMinSecStr sec
  | _ => false

/-- JS truthiness and sign guard for the parsed `--limit` value:
`limitValue && limitValue > 0`. -/
def limitOk : Option Int → Bool
  | some n => n != 0 && n > 0
  | none => false

/-- The argument-parsing `for` loop: each branch mirrors the source,
including the `i++` skip of a consumed value and the `break` on a validation
error (processing stops with `help` set).  The one-element alternative is the
loop body when `args[i + 1]` is `undefined`: every value-taking option then
fails its validation. -/
def parseLoop : List String → CliOptions → CliOptions
  | [], o => o
  | [arg], o =>
    if startsWithDash arg && !(validOptions.contains arg) then { o with help := true }
    else if arg == "--help" || arg == "-h" then parseLoop [] { o with help := true }
    else if arg == "--sort" || arg == "-s" then { o with help := true }
    else if arg == "--date" || arg == "-d" then { o with help := true }
    else if arg == "--from" || arg == "-f" then { o with help := true }
    else if arg == "--to" || arg == "-t" then { o with help := true }
    else if arg == "--timezone" || arg == "-z" then { o with help := true }
    else if arg == "--limit" || arg == "-l" then { o with help := true }
    else parseLoop [] o
  | arg :: v :: rest2, o =>
    if startsWithDash arg && !(validOptions.contains arg) then { o with help := true }
    else if arg == "--help" || arg == "-h" then parseLoop (v :: rest2) { o with help := true }
    else if arg == "--sort" || arg == "-s" then
      if v == "asc" || v == "desc" then parseLoop rest2 { o with sort := v }
      else { o with help := true }
    else if arg == "--date" || arg == "-d" then
      if v ≠ "" && isDateFormat v then parseLoop rest2 { o with date := some v }
      else { o with help := true }
    else if arg == "--from" || arg == "-f" then
      if v ≠ "" && isTimeFormat v then parseLoop rest2 { o with fromT := some v }
      else { o with help := true }
    else if arg == "--to" || arg == "-t" then
      if v ≠ "" && isTimeFormat v then parseLoop rest2 { o with toT := some v }
      else { o with help := true }
    else if arg == "--timezone" || arg == "-z" then
      if v ≠ "" then parseLoop rest2 { o with timezone := some v }
      else { o with help := true }
    else if arg == "--limit" || arg == "-l" then
      if limitOk (jsParseInt v) then parseLoop rest2 { o with limit := jsParseInt v }
      else { o with help := true }
    else parseLoop (v :: rest2) o

/-- The two cross-option validations that follow the loop
(`--from`/`--to` require `--date`; `--from` and `--to` come together). -/
def parseArgs (args : List String) : CliOptions :=
  let o := parseLoop args defaultOptions
  let o1 :=
    if ((jsTruthyStr o.fromT).isSome || (jsTruthyStr o.toT).isSome)
        && !(jsTruthyStr o.date).isSome then
      { o with help := true }
    else o
  if ((jsTruthyStr o1.fromT).isSome && !(jsTruthyStr o1.toT).isSome)
      || (!(jsTruthyStr o1.fromT).isSome && (jsTruthyStr o1.toT).isSome) then
    { o1 with help := true }
  else o1

/-- What the top level does with the parsed options: `options.help` prints
the usage text and calls `process.exit(0)`; otherwise `main()` runs with the
options (passing `options.limit` to `getStargazers`). -/
inductive ProgramStep where
  | helpExit (code : Nat)
  | runMain (opts : CliOptions)
  deriving DecidableEq, Repr

/-- The script's top level: parse, then either the help/usage exit or `main`. -/
def program (args : List String) : ProgramStep :=
  let o := parseArgs args
  if o.help then .helpExit 0 else .runMain o

/-- Whether a program step exits the process with a non-zero status. -/
def exitsNonzero : ProgramStep → Bool
  | .helpExit c => c != 0
  | .runMain _ => false

/-! ## Enrichment batcher (`enrichStargazersData`, `getDetailedUserInfo`) -/

/-- The flat per-user profile object returned by the `/users/<login>` GET. -/
structure UserProfile where
  login : String
  id : Nat
  html_url : String
  utype : Option String
  name : Option String
  company : Option String
  location : Option String
  bio : Option String
  followers : Nat
  public_repos : Nat
  deriving DecidableEq, Repr

/-- A stargazer after enrichment: the base fields plus the optional profile
fields (absent when the per-user fetch failed). -/
structure EnrichedStargazer where
  login : String
  id : Nat
  html_url : String
  utype : Option String
  starred_at : Int
  name : Option String
  company : Option String
  location : Option String
  bio : Option String
  followers : Option Nat
  public_repos : Option Nat
  deriving DecidableEq, Repr

/-- A base record viewed as an enriched record with no profile fields:
`{...stargazer}` with nothing spread on top. -/
def toEnriched (s : Stargazer) : EnrichedStargazer :=
  { login := s.login, id := s.id, html_url := s.html_url, utype := s.utype,
    starred_at := s.starred_at, name := none, company := none, location := none,
    bio := none, followers := none, public_repos := none }

/-- `{ ...stargazer, ...detailedInfo }`: spreading `null` adds nothing;
spreading a profile overwrites the shared keys with the profile's values and
adds the profile-only fields (`starred_at` only exists on the base record). -/
def mergeSpread (s : Stargazer) (d : Option UserProfile) : EnrichedStargazer :=
  match d with
  | none => toEnriched s
  | some p =>
    { login := p.login, id := p.id, html_url := p.html_url, utype := p.utype,
      starred_at := s.starred_at, name := p.name, company := p.company,
      location := p.location, bio := p.bio, followers := some p.followers,
      public_repos := some p.public_repos }

/-- `getDetailedUserInfo`: awaits the per-user request and returns its data,
but catches any rejection and resolves with `null` instead — the returned
promise never rejects. -/
def getDetailedUserInfo (outcome : Except ReqError UserProfile) :
    Except ReqError (Option UserProfile) :=
  match outcome with
  | .ok p => .ok (some p)
  | .error _ => .ok none

/-- The per-item mapping inside `enrichStargazersData`: await
`getDetailedUserInfo` and spread the result over the base record; the
`catch` branch returns the original record. `fetch` gives the outcome of the
underlying per-user request for each login. -/
def enrichOne (fetch : String → Except ReqError UserProfile) (s : Stargazer) :
    EnrichedStargazer :=
  match getDetailedUserInfo (fetch s.login) with
  | .ok d => mergeSpread s d
  | .error _ => toEnriched s

/-- The `for (let i = 0; i < n; i += batchSize)` slicing with
`batchSize = 50`. -/
def chunkList : List Stargazer → List (List Stargazer)
  | [] => []
  | x :: xs => ((x :: xs).take 50) :: chunkList ((x :: xs).drop 50)
  termination_by l => l.length
  decreasing_by
    simp only [List.length_drop, List.length_cons]
    omega

/-- `enrichStargazersData`: process batches of 50 in order, mapping each
batch through the per-item enrichment (`Promise.all` keeps batch order), and
concatenate the batch results. -/
def enrichStargazersData (fetch : String → Except ReqError UserProfile)
    (stargazers : List Stargazer) : List EnrichedStargazer :=
  ((chunkList stargazers).map (fun batch => batch.map (enrichOne fetch))).flatten

/-- A fixed user profile for enrichment witnesses. -/
def demoProfile : UserProfile :=
  { login := "octocat", id := 1, html_url := "https://github.com/octocat",
    utype := some "User", name := some "The Octocat", company := none,
    location := some "San Francisco", bio := none, followers := 100,
    public_repos := 8 }

/-- A fetch function that fails for the login "boundary" and succeeds
elsewhere. -/
def failingFetch : String → Except ReqError UserProfile :=
  fun login =>
    if login = "boundary" then .error (.httpError 404 "Not Found")
    else .ok demoProfile

/-! ## Report assembler (`generateStargazersReport`) -/

/-- The `summary` block of the report; `report_generated_at` is the value of
`new Date().toISOString()` at generation time, modeled as the clock instant. -/
structure ReportSummary where
  repository : String
  total_stargazers : Nat
  report_generated_at : Int
  deriving DecidableEq, Repr

/-- An entry of `statistics.top_stargazers`. -/
structure TopEntry where
  login : String
  id : Nat
  profile_url : String
  starred_at : Int
  deriving DecidableEq, Repr

/-- An entry of `statistics.recent_stargazers` / `statistics.oldest_stargazers`. -/
structure DateEntry where
  login : String
  starred_at : Int
  deriving DecidableEq, Repr

/-- The `statistics` block; `user_types` is the dynamic counting object in
key-insertion order. -/
structure ReportStatistics where
  user_types : List (String × Nat)
  top_stargazers : List TopEntry
  recent_stargazers : List DateEntry
  oldest_stargazers : List DateEntry
  deriving DecidableEq, Repr

/-- An entry of `stargazers_list`. -/
structure ReportListEntry where
  login : String
  id : Nat
  profile_url : String
  starred_at : Int
  rtype : String
  deriving DecidableEq, Repr

/-- The full report object. -/
structure StargazersReport where
  summary : ReportSummary
  statistics : ReportStatistics
  stargazers_list : List ReportListEntry
  deriving DecidableEq, Repr

/-- `report.statistics.user_types[type] = (… || 0) + 1`: bump the counter for
a key in a JS object, creating it (at the end, in insertion order) if absent. -/
def bumpType : List (String × Nat) → String → List (String × Nat)
  | [], t => [(t, 1)]
  | (k, c) :: rest, t =>
    if k = t then (k, c + 1) :: rest else (k, c) :: bumpType rest t

/-- The descending `sort` comparator `(a, b) => new Date(b.starred_at) - new
Date(a.starred_at)` as the corresponding total `le`. -/
def enrichedDescLe (a b : EnrichedStargazer) : Bool :=
  decide (b.starred_at ≤ a.starred_at)

/-- `generateStargazersReport`: counts by user type (default `'User'`), the
top-20 slice in current order, the most-recent/oldest sub-lists from an
independent descending re-sort on `starred_at` (`slice(0, 10)` and
`slice(-10).reverse()`), and the flat `stargazers_list`; `now` is the clock
read by `new Date().toISOString()` for `report_generated_at`. -/
def generateStargazersReport (now : Int) (stargazers : List EnrichedStargazer) :
    StargazersReport :=
  let user_types := stargazers.foldl (fun acc s => bumpType acc (s.utype.getD "User")) []
  let top := (stargazers.take 20).map
    (fun s => { login := s.login, id := s.id, profile_url := s.html_url,
                starred_at := s.starred_at : TopEntry })
  let sortedByDate := stargazers.mergeSort enrichedDescLe
  let recent := (sortedByDate.take 10).map
    (fun s => { login := s.login, starred_at := s.starred_at : DateEntry })
  let oldest := ((sortedByDate.drop (sortedByDate.length - 10)).reverse).map
    (fun s => { login := s.login, starred_at := s.starred_at : DateEntry })
  { summary :=
      { repository := "SolaceLabs/solace-agent-mesh",
        total_stargazers := stargazers.length,
        report_generated_at := now },
    statistics :=
      { user_types := user_types, top_stargazers := top,
        recent_stargazers := recent, oldest_stargazers := oldest },
    stargazers_list := stargazers.map
      (fun s => { login := s.login, id := s.id, profile_url := s.html_url,
                  starred_at := s.starred_at,
                  rtype := s.utype.getD "User" : ReportListEntry }) }

theorem urlsFrom_one (s : Nat) : urlsFrom s 1 = [pageUrl s] := by
  simp [urlsFrom, List.range_succ]

theorem urlsFrom_succ (s k : Nat) :
    urlsFrom s (k + 1) = pageUrl s :: urlsFrom (s + 1) k := by
  simp only [urlsFrom, List.range_succ_eq_map, List.map_cons, List.map_map, Nat.add_zero]
  congr 1
  apply List.map_congr_left
  intro i _
  have h : s + (i + 1) = s + 1 + i := by omega
  simp [Function.comp, Nat.succ_eq_add_one, h]

/-- Unlimited run: the loop accumulates every live item and ends exhausted,
after requesting consecutive pages. -/
theorem getStargazersLoop_none (pages : List (List StarItem)) :
    ∀ page acc urls,
      getStargazersLoop pages none page acc urls =
        { records := acc ++ (liveItems pages).map flattenItem,
          urls := urls ++ urlsFrom page (numRequests pages),
          pagEnd := .exhausted } := by
  induction pages with
  | nil =>
    intro page acc urls
    simp [getStargazersLoop, liveItems, numRequests, urlsFrom_one]
  | cons p rest ih =>
    intro page acc urls
    by_cases hp : p.length = 0
    · simp [getStargazersLoop, hp, liveItems, numRequests, urlsFrom_one]
    · simp only [getStargazersLoop, hp, if_false, limitHit, ih, liveItems, numRequests,
        urlsFrom_succ]
      simp

/-- Limited run: as long as the accumulator is below the (positive) limit, the
loop produces the `limit`-truncation of the live items, ends `limitReached`
exactly when the live items meet the limit, and requests consecutive pages. -/
theorem getStargazersLoop_some (l : Int) (hl : 0 < l) (pages : List (List StarItem)) :
    ∀ page acc urls, (acc.length : Int) < l →
      getStargazersLoop pages (some l) page acc urls =
        { records := (acc ++ (liveItems pages).map flattenItem).take l.toNat,
          urls := urls ++ urlsFrom page (numRequestsLimited l acc.length pages),
          pagEnd := if l ≤ ((acc ++ (liveItems pages).map flattenItem).length : Int)
                    then .limitReached else .exhausted } := by
  induction pages with
  | nil =>
    intro page acc urls hacc
    have h1 : acc.length ≤ l.toNat := by omega
    have h2 : ¬ l ≤ (acc.length : Int) := by omega
    simp [getStargazersLoop, liveItems, numRequestsLimited, urlsFrom_one,
      List.take_of_length_le h1, h2]
  | cons p rest ih =>
    intro page acc urls hacc
    by_cases hp : p.length = 0
    · have h1 : acc.length ≤ l.toNat := by omega
      have h2 : ¬ l ≤ (acc.length : Int) := by omega
      simp [getStargazersLoop, hp, liveItems, numRequestsLimited, urlsFrom_one,
        List.take_of_length_le h1, h2]
    · have hlen : (acc ++ p.map flattenItem).length = acc.length + p.length := by
        simp
      by_cases hle : l ≤ ((acc.length + p.length : Nat) : Int)
      · have hhit : limitHit (some l) (acc ++ p.map flattenItem).length = true := by
          simp [limitHit, hlen]
          omega
        have htake : trimToLimit (some l) (acc ++ p.map flattenItem) =
            (acc ++ p.map flattenItem).take l.toNat := by
          unfold trimToLimit jsSliceTo
          by_cases hgt : l < ((acc ++ p.map flattenItem).length : Int)
          · simp [hgt, hl.le]
          · have hlen' : (acc ++ p.map flattenItem).length ≤ l.toNat := by omega
            simp only [hgt, if_false]
            rw [List.take_of_length_le hlen']
        have hrec : (acc ++ ((liveItems (p :: rest)).map flattenItem)).take l.toNat =
            (acc ++ p.map flattenItem).take l.toNat := by
          have hl' : l.toNat ≤ (acc ++ p.map flattenItem).length := by omega
          simp only [liveItems, hp, if_false, List.map_append, ← List.append_assoc]
          rw [List.take_append_of_le_length hl']
        have hend : l ≤ ((acc ++ (liveItems (p :: rest)).map flattenItem).length : Int) := by
          simp only [liveItems, hp, if_false]
          simp only [List.length_append, List.length_map]
          push_cast
          omega
        simp only [getStargazersLoop, hp, if_false, hhit, if_true, htake, hrec,
          numRequestsLimited, hle, if_true, urlsFrom_one, hend]
      · have hhit : limitHit (some l) (acc ++ p.map flattenItem).length = false := by
          simp [limitHit, hlen]
          omega
        have hacc' : ((acc ++ p.map flattenItem).length : Int) < l := by
          rw [hlen]; push_cast; omega
        have := ih (page + 1) (acc ++ p.map flattenItem) (urls ++ [pageUrl page]) hacc'
        have hassoc : (acc ++ p.map flattenItem) ++ (liveItems rest).map flattenItem =
            acc ++ (liveItems (p :: rest)).map flattenItem := by
          simp [liveItems, hp]
        have hle' : ¬ l ≤ (acc.length : Int) + (p.length : Int) := by
          push_cast at hle
          exact hle
        have hnum : numRequestsLimited l acc.length (p :: rest) =
            numRequestsLimited l (acc.length + p.length) rest + 1 := by
          simp [numRequestsLimited, hp, hle, hle']
        simp only [getStargazersLoop, hp, if_false, hhit, Bool.false_eq_true, this]
        rw [hassoc, hnum, urlsFrom_succ, hlen]
        simp only [List.append_assoc, List.singleton_append]

set_option maxRecDepth 40000 in
/-- C1: `getStargazers` requests pages of fixed size 100 starting at page 1; an
empty page terminates pagination successfully with the accumulated list (pages
of 100/100/37 items with no limit yield an accumulator of length 237 and an
exhausted end); with a positive limit, pagination stops once the accumulator
meets or exceeds it and the result is truncated to exactly `limit` records
(limit 150 over pages of 100/100 stops after page 2 with exactly 150 records). -/
theorem getStargazers_pagination_spec :
    (∀ pages, getStargazers pages none =
       { records := (liveItems pages).map flattenItem,
         urls := urlsFrom 1 (numRequests pages),
         pagEnd := .exhausted })
    ∧ (∀ pages (l : Int), 0 < l →
        getStargazers pages (some l) =
          { records := ((liveItems pages).map flattenItem).take l.toNat,
            urls := urlsFrom 1 (numRequestsLimited l 0 pages),
            pagEnd := if l ≤ (((liveItems pages).map flattenItem).length : Int)
                      then .limitReached else .exhausted })
    ∧ (getStargazers scenarioPages3 none).records.length = 237
    ∧ (getStargazers scenarioPages3 none).pagEnd = .exhausted
    ∧ (getStargazers scenarioPages2 (some 150)).records.length = 150
    ∧ (getStargazers scenarioPages2 (some 150)).urls = [pageUrl 1, pageUrl 2]
    ∧ (getStargazers scenarioPages2 (some 150)).pagEnd = .limitReached := by
  refine ⟨?_, ?_, ?_, ?_, ?_, ?_, ?_⟩
  · intro pages
    simpa using getStargazersLoop_none pages 1 [] []
  · intro pages l hl
    have h0 : (([] : List Stargazer).length : Int) < l := by simpa using hl
    simpa using getStargazersLoop_some l hl pages 1 [] [] h0
  · decide
  · decide
  · decide
  · decide
  · decide

/-- Witness for C1: the limited branch of the theorem applied to the concrete
100/100-page scenario with limit 150. -/
theorem getStargazers_pagination_spec_witness :
    getStargazers scenarioPages2 (some 150) =
      { records := ((liveItems scenarioPages2).map flattenItem).take ((150 : Int).toNat),
        urls := urlsFrom 1 (numRequestsLimited 150 0 scenarioPages2),
        pagEnd := if (150 : Int) ≤ (((liveItems scenarioPages2).map flattenItem).length : Int)
                  then .limitReached else .exhausted } :=
  getStargazers_pagination_spec.2.1 scenarioPages2 150 (by norm_num)

/-- C4 counterexample: `getStargazers` performs no deduplication — when the
same user appears in two page responses, both copies are in the accumulator,
so the returned logins are not pairwise distinct. -/
theorem getStargazers_dedup_counterexample :
    ¬ (((getStargazers [[demoItem], [demoItem]] none).records.map
          (fun r => r.login)).Nodup) := by
  decide

/-- C4 (amended): the accumulator is the in-order concatenation of the fetched
page items with no deduplication, so its logins are pairwise distinct if and
only if the logins of the fetched page items are. -/
theorem getStargazers_logins_nodup_iff :
    ∀ pages,
      ((getStargazers pages none).records.map (fun r => r.login)).Nodup ↔
        ((liveItems pages).map (fun it => it.user.login)).Nodup := by
  intro pages
  have h := getStargazersLoop_none pages 1 [] []
  simp only [getStargazers, h, List.nil_append, List.map_map]
  exact Iff.rfl

/-- C2: a 403 with `x-ratelimit-remaining == "0"` waits
`ceil((resetAt - now)/1000) + 60` seconds and reissues the identical request;
the returned promise settles with the retried request's outcome (the retry is
not a caller-visible failure). -/
theorem makeRequest_rate_limit_retry :
    ∀ (r : HttpResponse) (rest : List WireEvent),
      r.statusCode = 403 → r.rlRemaining = some "0" →
      classify r = .retry (jsCeilDiv (r.rlResetSec * 1000 - r.nowMs) 1000 + 60)
      ∧ makeRequestTrace (.response r :: rest) =
          (makeRequestTrace rest).map
            (fun p => (p.1, jsCeilDiv (r.rlResetSec * 1000 - r.nowMs) 1000 + 60 + p.2))
      ∧ ∀ res wait, makeRequestTrace rest = some (res, wait) →
          makeRequestTrace (.response r :: rest) =
            some (res, jsCeilDiv (r.rlResetSec * 1000 - r.nowMs) 1000 + 60 + wait) := by
  intro r rest h403 hrem
  have hno2xx : ¬ (200 ≤ r.statusCode ∧ r.statusCode < 300) := by omega
  have hc : classify r = .retry (jsCeilDiv (r.rlResetSec * 1000 - r.nowMs) 1000 + 60) := by
    simp [classify, hno2xx, h403, hrem]
  refine ⟨hc, ?_, ?_⟩
  · simp [makeRequestTrace, hc]
  · intro res wait hw
    simp [makeRequestTrace, hc, hw]

/-- Witness for C2: reset 5 seconds in the future means a 65-second wait, and
the promise settles with the retried request's success. -/
theorem makeRequest_rate_limit_retry_witness :
    classify rateLimitedResp = .retry 65
    ∧ makeRequestTrace [.response rateLimitedResp, .response okResp] =
        some (.ok { message := none }, 65) := by
  have h := makeRequest_rate_limit_retry rateLimitedResp [.response okResp] rfl rfl
  refine ⟨?_, ?_⟩
  · rw [h.1]
    rfl
  · have h3 := h.2.2 (.ok { message := none }) 0 rfl
    rw [h3]
    rfl

/-- C3: a 403 whose `x-ratelimit-remaining` is not `"0"` is fatal: if the
body's `message` names SAML enforcement the promise rejects with a
SAML-enforcement error carrying that message and the request is not retried
(it settles immediately, whatever further events follow); any other 403
rejects with an HTTP error carrying the status code and the body text. -/
theorem makeRequest_403_saml_or_http :
    ∀ (r : HttpResponse) (rest : List WireEvent),
      r.statusCode = 403 → r.rlRemaining ≠ some "0" →
      (∀ j m, r.parsed = some j → j.message = some m →
        (jsIncludes m "SAML enforcement" = true →
          classify r = .reject (.saml m)
          ∧ makeRequestTrace (.response r :: rest) = some (.error (.saml m), 0))
        ∧ (jsIncludes m "SAML enforcement" = false →
          classify r = .reject (.httpError 403 r.raw)
          ∧ makeRequestTrace (.response r :: rest) =
              some (.error (.httpError 403 r.raw), 0)))
      ∧ ((r.parsed = none ∨ ∃ j, r.parsed = some j ∧ j.message = none) →
        classify r = .reject (.httpError 403 r.raw)
        ∧ makeRequestTrace (.response r :: rest) =
            some (.error (.httpError 403 r.raw), 0)) := by
  intro r rest h403 hrem
  have hno2xx : ¬ (200 ≤ r.statusCode ∧ r.statusCode < 300) := by omega
  constructor
  · intro j m hj hm
    constructor
    · intro hsaml
      have hc : classify r = .reject (.saml m) := by
        simp [classify, hno2xx, h403, hrem, hj, hm, hsaml]
      exact ⟨hc, by simp [makeRequestTrace, hc]⟩
    · intro hsaml
      have hc : classify r = .reject (.httpError 403 r.raw) := by
        simp [classify, hno2xx, h403, hrem, hj, hm, hsaml]
      exact ⟨hc, by simp [makeRequestTrace, hc]⟩
  · intro hcase
    have hc : classify r = .reject (.httpError 403 r.raw) := by
      rcases hcase with hnone | ⟨j, hj, hm⟩
      · simp [classify, hno2xx, h403, hrem, hnone]
      · simp [classify, hno2xx, h403, hrem, hj, hm]
    exact ⟨hc, by simp [makeRequestTrace, hc]⟩

/-- C6: with a date filter and no time window, the stage keeps exactly the
records whose `starred_at` instant lies in
`[dateFilter 00:00:00, dateFilter+1day 00:00:00)`, the comparison being on
the record's own instant (the output is a permutation of that filter, the
sort merely reorders it). -/
theorem filterAndSort_date_window :
    ∀ (env : TimeEnv) (opts : CliOptions) (l : List Stargazer) (d : String),
      opts.date = some d → opts.fromT = none → opts.toT = none →
      (filterAndSortStargazers env l opts).Perm
        (l.filter (fun r =>
          decide (env.localMidnight d ≤ r.starred_at
            ∧ r.starred_at < env.addOneDay (env.localMidnight d))))
      ∧ (∀ r, r ∈ filterAndSortStargazers env l opts ↔
          r ∈ l ∧ env.localMidnight d ≤ r.starred_at
            ∧ r.starred_at < env.addOneDay (env.localMidnight d)) := by
  intro env opts l d hd hfrom hto
  have hshape : filterAndSortStargazers env l opts =
      (l.filter (fun r =>
        decide (env.localMidnight d ≤ r.starred_at
          ∧ r.starred_at < env.addOneDay (env.localMidnight d)))).mergeSort
        (starLe opts.sort) := by
    simp [filterAndSortStargazers, hd, hfrom, hto, jsTruthyStr]
  constructor
  · rw [hshape]
    exact List.mergeSort_perm _ _
  · intro r
    rw [hshape]
    simp [List.mem_mergeSort, List.mem_filter]

/-- Witness for C3: the SAML 403 rejects immediately with the body's message
and is not retried; the plain 403 rejects with the HTTP error. -/
theorem makeRequest_403_saml_or_http_witness :
    (classify samlResp =
      .reject (.saml "Resource protected by organization SAML enforcement.")
      ∧ makeRequestTrace [.response samlResp, .response okResp] =
          some (.error
            (.saml "Resource protected by organization SAML enforcement."), 0))
    ∧ classify plain403Resp = .reject (.httpError 403 "forbidden body") := by
  constructor
  · exact ((makeRequest_403_saml_or_http samlResp [.response okResp] rfl
      (by decide)).1 _ _ rfl rfl).1 (by decide)
  · exact (((makeRequest_403_saml_or_http plain403Resp [] rfl
      (by decide)).1 _ _ rfl rfl).2 (by decide)).1

theorem timeMatches_closed (ftv ttv s : Int) :
    timeMatches (some (some ftv)) (some (some ttv)) s = decide (ftv ≤ s ∧ s ≤ ttv) := by
  by_cases h1 : ftv ≤ s <;> by_cases h2 : s ≤ ttv <;>
    simp [timeMatches, numLt, numGt, h1, h2]
  all_goals omega

/-- C5: with a date filter and both time bounds present, the stage converts
each record's `starred_at` to the target timezone's wall-clock seconds since
midnight and keeps exactly the (date-window) records whose converted time
lies in the closed interval `[fromTime, toTime]`; a record landing exactly on
either bound is included. -/
theorem filterAndSort_time_window :
    ∀ (env : TimeEnv) (opts : CliOptions) (l : List Stargazer) (d f t : String)
      (ft tt : Int),
      opts.date = some d → opts.fromT = some f → opts.toT = some t →
      f ≠ "" → t ≠ "" → parseTime f = some ft → parseTime t = some tt →
      (filterAndSortStargazers env l opts).Perm
        (l.filter (fun (r : Stargazer) =>
          decide ((env.localMidnight d ≤ r.starred_at
              ∧ r.starred_at < env.addOneDay (env.localMidnight d))
            ∧ ft ≤ ((getTimeInTimezone env opts.timezone r.starred_at).totalSeconds : Int)
            ∧ ((getTimeInTimezone env opts.timezone r.starred_at).totalSeconds : Int) ≤ tt)))
      ∧ (∀ r, r ∈ filterAndSortStargazers env l opts ↔
          r ∈ l ∧ (env.localMidnight d ≤ r.starred_at
              ∧ r.starred_at < env.addOneDay (env.localMidnight d))
            ∧ ft ≤ ((getTimeInTimezone env opts.timezone r.starred_at).totalSeconds : Int)
            ∧ ((getTimeInTimezone env opts.timezone r.starred_at).totalSeconds : Int) ≤ tt) := by
  intro env opts l d f t ft tt hd hf ht hfne htne hft htt
  have hfT : jsTruthyStr opts.fromT = some f := by simp [jsTruthyStr, hf, hfne]
  have htT : jsTruthyStr opts.toT = some t := by simp [jsTruthyStr, ht, htne]
  have hfrom : optParsedTime opts.fromT = some (some ft) := by
    simp [optParsedTime, hfT, hft]
  have hto : optParsedTime opts.toT = some (some tt) := by
    simp [optParsedTime, htT, htt]
  have hshape : filterAndSortStargazers env l opts =
      (l.filter (fun (r : Stargazer) =>
        decide ((env.localMidnight d ≤ r.starred_at
            ∧ r.starred_at < env.addOneDay (env.localMidnight d))
          ∧ ft ≤ ((getTimeInTimezone env opts.timezone r.starred_at).totalSeconds : Int)
          ∧ ((getTimeInTimezone env opts.timezone r.starred_at).totalSeconds : Int) ≤ tt))).mergeSort
        (starLe opts.sort) := by
    have hpred : (fun (r : Stargazer) =>
        timeMatches (optParsedTime opts.fromT) (optParsedTime opts.toT)
          ((getTimeInTimezone env opts.timezone r.starred_at).totalSeconds : Int)
        && decide (env.localMidnight d ≤ r.starred_at
            ∧ r.starred_at < env.addOneDay (env.localMidnight d))) =
        (fun (r : Stargazer) =>
          decide ((env.localMidnight d ≤ r.starred_at
              ∧ r.starred_at < env.addOneDay (env.localMidnight d))
            ∧ ft ≤ ((getTimeInTimezone env opts.timezone r.starred_at).totalSeconds : Int)
            ∧ ((getTimeInTimezone env opts.timezone r.starred_at).totalSeconds : Int) ≤ tt)) := by
      funext r
      rw [hfrom, hto, timeMatches_closed]
      by_cases hdw : env.localMidnight d ≤ r.starred_at
          ∧ r.starred_at < env.addOneDay (env.localMidnight d) <;>
        by_cases htw : ft ≤ ((getTimeInTimezone env opts.timezone r.starred_at).totalSeconds : Int)
            ∧ ((getTimeInTimezone env opts.timezone r.starred_at).totalSeconds : Int) ≤ tt <;>
        simp [hdw, htw]
    simp only [filterAndSortStargazers, hd, hfT, htT, Option.isSome_some, Bool.or_self,
      if_true, List.filter_filter, hpred]
  constructor
  · rw [hshape]
    exact List.mergeSort_perm _ _
  · intro r
    rw [hshape]
    simp [List.mem_mergeSort, List.mem_filter, and_assoc]

/-- Witness for C5: a record whose converted time is exactly the 09:00:00
`fromTime` boundary is kept by the time-window filter. -/
theorem filterAndSort_time_window_witness :
    boundaryStargazer ∈ filterAndSortStargazers demoEnv [boundaryStargazer] timeWindowOpts := by
  have h := filterAndSort_time_window demoEnv timeWindowOpts [boundaryStargazer]
    "2025-02-26" "09:00" "17:00" 32400 61200 rfl rfl rfl (by decide) (by decide)
    (by decide) (by decide)
  exact (h.2 boundaryStargazer).mpr
    ⟨List.mem_singleton_self _, by decide, by decide, by decide⟩

/-- Witness for C6: a record inside the demo day window is kept by the date
filter (instant comparison). -/
theorem filterAndSort_date_window_witness :
    boundaryStargazer ∈ filterAndSortStargazers demoEnv [boundaryStargazer] dateOnlyOpts := by
  have h := filterAndSort_date_window demoEnv dateOnlyOpts [boundaryStargazer]
    "2025-02-26" rfl rfl rfl
  exact (h.2 boundaryStargazer).mpr ⟨List.mem_singleton_self _, by decide, by decide⟩

set_option maxHeartbeats 3200000 in
/-- Any `limit` stored by the parsing loop is positive: the `--limit` branch
stores a parsed value only under the `limitValue && limitValue > 0` guard,
and no other branch writes `limit`. -/
theorem parseLoop_limit_pos :
    ∀ (k : Nat) (args : List String), args.length ≤ k →
      ∀ (o : CliOptions), (∀ n, o.limit = some n → 0 < n) →
      ∀ n, (parseLoop args o).limit = some n → 0 < n := by
  intro k
  induction k with
  | zero =>
    intro args hlen o h
    have hargs : args = [] := List.eq_nil_of_length_eq_zero (by omega)
    subst hargs
    exact fun n hn => h n hn
  | succ k ih =>
    intro args hlen o h
    match args with
    | [] => exact fun n hn => h n hn
    | [arg] =>
      have hlen1 : ([] : List String).length ≤ k := by simp
      rw [parseLoop]
      split
      · exact fun n hn => h n hn
      split
      · exact ih [] hlen1 _ (fun n hn => h n hn)
      split
      · exact fun n hn => h n hn
      split
      · exact fun n hn => h n hn
      split
      · exact fun n hn => h n hn
      split
      · exact fun n hn => h n hn
      split
      · exact fun n hn => h n hn
      split
      · exact fun n hn => h n hn
      · exact ih [] hlen1 _ (fun n hn => h n hn)
    | arg :: v :: rest2 =>
      have hlen1 : (v :: rest2).length ≤ k := by
        simp only [List.length_cons] at hlen ⊢
        omega
      have hlen2 : rest2.length ≤ k := by
        simp only [List.length_cons] at hlen
        omega
      rw [parseLoop]
      split
      · exact fun n hn => h n hn
      split
      · exact ih (v :: rest2) hlen1 _ (fun n hn => h n hn)
      split
      · split
        · exact ih rest2 hlen2 _ (fun n hn => h n hn)
        · exact fun n hn => h n hn
      split
      · split
        · exact ih rest2 hlen2 _ (fun n hn => h n hn)
        · exact fun n hn => h n hn
      split
      · split
        · exact ih rest2 hlen2 _ (fun n hn => h n hn)
        · exact fun n hn => h n hn
      split
      · split
        · exact ih rest2 hlen2 _ (fun n hn => h n hn)
        · exact fun n hn => h n hn
      split
      · split
        · exact ih rest2 hlen2 _ (fun n hn => h n hn)
        · exact fun n hn => h n hn
      split
      · split
        · rename_i hguard
          refine ih rest2 hlen2 _ ?_
          intro m hm
          cases hjs : jsParseInt v with
          | none => rw [hjs] at hguard; simp [limitOk] at hguard
          | some nv =>
            rw [hjs] at hm hguard
            have hm2 := Option.some.inj hm
            subst hm2
            simp only [limitOk, Bool.and_eq_true, bne_iff_ne, ne_eq, decide_eq_true_eq] at hguard
            omega
        · exact fun n hn => h n hn
      · exact ih (v :: rest2) hlen1 _ (fun n hn => h n hn)

/-- C7 counterexample: `--limit 0` is rejected at option-parse time and the
usage/help path is taken, but the process exits with status 0 — not the
non-zero status the claim asserts. -/
theorem limit_zero_exit_counterexample :
    program ["--limit", "0"] = .helpExit 0
    ∧ exitsNonzero (program ["--limit", "0"]) = false := by
  exact ⟨by decide, by decide⟩

/-- C7 (amended): an invalid `--limit` value (`0`, negative, or unparsable)
is rejected at option-parse time and the process exits through the shared
usage/help path with status 0 (not a non-zero status); a non-positive limit
never reaches the pagination driver — any run that reaches `main` carries
either no limit or a positive one. -/
theorem limit_validation_spec :
    (∀ args opts, program args = .runMain opts →
      ∀ n, opts.limit = some n → 0 < n)
    ∧ program ["--limit", "0"] = .helpExit 0
    ∧ program ["--limit", "-7"] = .helpExit 0
    ∧ program ["--limit", "abc"] = .helpExit 0 := by
  refine ⟨?_, by decide, by decide, by decide⟩
  intro args opts hrun n hn
  have hopts : opts = parseArgs args := by
    unfold program at hrun
    by_cases hh : (parseArgs args).help
    · simp [hh] at hrun
    · simp [hh] at hrun
      exact hrun.symm
  subst hopts
  have hlim : (parseArgs args).limit = (parseLoop args defaultOptions).limit := by
    unfold parseArgs
    dsimp only
    split <;> split <;> rfl
  rw [hlim] at hn
  exact parseLoop_limit_pos args.length args le_rfl defaultOptions
    (fun m hm => nomatch hm) n hn

/-- Witness for C7 (amended): a valid `--limit 5` reaches `main`, and the
theorem yields positivity of the limit it carries. -/
theorem limit_validation_spec_witness :
    program ["--limit", "5"] = .runMain (parseArgs ["--limit", "5"])
    ∧ (0 : Int) < 5 := by
  constructor
  · decide
  · exact limit_validation_spec.1 ["--limit", "5"] (parseArgs ["--limit", "5"])
      (by decide) 5 (by decide)

theorem chunkList_flatten : ∀ l : List Stargazer, (chunkList l).flatten = l := by
  intro l
  induction l using chunkList.induct with
  | case1 => rw [chunkList]; rfl
  | case2 x xs ih =>
    rw [chunkList]
    simp only [List.flatten_cons, ih, List.take_append_drop]

theorem chunkList_length_le : ∀ l : List Stargazer, ∀ b ∈ chunkList l, b.length ≤ 50 := by
  intro l
  induction l using chunkList.induct with
  | case1 => intro b hb; rw [chunkList] at hb; cases hb
  | case2 x xs ih =>
    intro b hb
    rw [chunkList] at hb
    rcases List.mem_cons.mp hb with hb1 | hb2
    · subst hb1
      simp [List.length_take_le]
    · exact ih b hb2

theorem chunkList_dropLast_length :
    ∀ l : List Stargazer, ∀ b ∈ (chunkList l).dropLast, b.length = 50 := by
  intro l
  induction l using chunkList.induct with
  | case1 => intro b hb; rw [chunkList] at hb; cases hb
  | case2 x xs ih =>
    intro b hb
    rw [chunkList] at hb
    cases hd : (x :: xs).drop 50 with
    | nil =>
      rw [hd] at hb
      rw [chunkList] at hb
      simp at hb
    | cons y ys =>
      rw [hd] at hb ih
      have hne : chunkList (y :: ys) ≠ [] := by
        rw [chunkList]
        simp
      rw [List.dropLast_cons_of_ne_nil hne] at hb
      rcases List.mem_cons.mp hb with hb1 | hb2
      · subst hb1
        have hlen : 50 ≤ xs.length := by
          have hld := congrArg List.length hd
          simp only [List.length_drop, List.length_cons] at hld
          omega
        simp only [List.length_take, List.length_cons]
        omega
      · exact ih b hb2

theorem enrichStargazersData_eq_map :
    ∀ (fetch : String → Except ReqError UserProfile) (l : List Stargazer),
      enrichStargazersData fetch l = l.map (enrichOne fetch) := by
  intro fetch l
  unfold enrichStargazersData
  have hgen : ∀ L : List (List Stargazer),
      (L.map (fun batch => batch.map (enrichOne fetch))).flatten =
        L.flatten.map (enrichOne fetch) := by
    intro L
    induction L with
    | nil => rfl
    | cons b L ih =>
      simp only [List.map_cons, List.flatten_cons, List.map_append, ih]
  rw [hgen, chunkList_flatten]

theorem enrichOne_eq (fetch : String → Except ReqError UserProfile) (s : Stargazer) :
    enrichOne fetch s =
      mergeSpread s (match fetch s.login with
        | .ok p => some p
        | .error _ => none) := by
  cases hf : fetch s.login with
  | ok p => simp [enrichOne, getDetailedUserInfo, hf]
  | error e => simp [enrichOne, getDetailedUserInfo, hf, mergeSpread]

/-- C8: `enrichStargazersData` processes its input in batches of 50 (every
batch has at most 50 items and every non-final batch exactly 50) and is,
end to end, the order-preserving per-item map: the output has the input's
length, position `i` of the output is the enrichment of position `i` of the
input, and an item whose per-user fetch fails contributes exactly its
pre-enrichment base record. -/
theorem enrich_batching_spec :
    ∀ (fetch : String → Except ReqError UserProfile) (l : List Stargazer),
      enrichStargazersData fetch l = l.map (enrichOne fetch)
      ∧ (enrichStargazersData fetch l).length = l.length
      ∧ (∀ i : Nat, (enrichStargazersData fetch l)[i]? = (l[i]?).map (enrichOne fetch))
      ∧ (∀ (i : Nat) (s : Stargazer) (e : ReqError), l[i]? = some s → fetch s.login = .error e →
          (enrichStargazersData fetch l)[i]? = some (toEnriched s))
      ∧ (∀ b ∈ chunkList l, b.length ≤ 50)
      ∧ (∀ b ∈ (chunkList l).dropLast, b.length = 50) := by
  intro fetch l
  have hmap := enrichStargazersData_eq_map fetch l
  refine ⟨hmap, by rw [hmap]; simp, ?_, ?_, chunkList_length_le l, chunkList_dropLast_length l⟩
  · intro i
    rw [hmap]
    simp
  · intro i s e hi hf
    have he : enrichOne fetch s = toEnriched s := by
      rw [enrichOne_eq, hf]
      rfl
    rw [hmap]
    simp [hi, he]

/-- Witness for C8: fetching the two-record list where the second per-user
fetch fails yields the untouched base record at position 1. -/
theorem enrich_batching_spec_witness :
    (enrichStargazersData failingFetch [flattenItem demoItem, boundaryStargazer])[1]? =
      some (toEnriched boundaryStargazer) :=
  (enrich_batching_spec failingFetch [flattenItem demoItem, boundaryStargazer]).2.2.2.1
    1 boundaryStargazer (.httpError 404 "Not Found") rfl rfl

/-- C10: `getDetailedUserInfo` never rejects — every outcome of the
underlying request resolves to `ok` (with the data or `null`); consequently
the `catch` branch of the per-item mapping is unreachable (the mapping
always equals the plain spread of the fetch result), and spreading the
`null` result leaves the base record unchanged. -/
theorem getDetailedUserInfo_never_rejects :
    ∀ (outcome : Except ReqError UserProfile)
      (fetch : String → Except ReqError UserProfile) (s : Stargazer),
      (∃ v, getDetailedUserInfo outcome = .ok v)
      ∧ enrichOne fetch s =
          mergeSpread s (match fetch s.login with
            | .ok p => some p
            | .error _ => none)
      ∧ mergeSpread s none = toEnriched s
      ∧ (∀ e, fetch s.login = .error e → enrichOne fetch s = toEnriched s) := by
  intro outcome fetch s
  refine ⟨?_, enrichOne_eq fetch s, rfl, ?_⟩
  · cases outcome with
    | ok p => exact ⟨some p, rfl⟩
    | error e => exact ⟨none, rfl⟩
  · intro e he
    rw [enrichOne_eq, he]
    rfl

/-- C9 counterexample: the report embeds the generation-time clock reading in
`summary.report_generated_at`, so two invocations of
`generateStargazersReport` on the identical (empty) input at different
instants produce different reports — the function is not deterministic in
the input sequence alone. -/
theorem report_clock_counterexample :
    generateStargazersReport 0 [] ≠ generateStargazersReport 1 [] := by
  decide

/-- C9 (amended): `generateStargazersReport` is a pure aggregation whose
output is determined by the input sequence except for the
`summary.report_generated_at` timestamp (the only part read from the clock):
the statistics (counts by user type, the top-20 slice in current order, and
the most-recent/oldest sub-lists derived by the independent re-sort on
`starred_at`), the stargazers list, the repository name, and the total are
identical across invocations on identical inputs. -/
theorem report_deterministic_except_timestamp :
    ∀ (now1 now2 : Int) (l : List EnrichedStargazer),
      (generateStargazersReport now1 l).statistics =
        (generateStargazersReport now2 l).statistics
      ∧ (generateStargazersReport now1 l).stargazers_list =
          (generateStargazersReport now2 l).stargazers_list
      ∧ (generateStargazersReport now1 l).summary.repository =
          (generateStargazersReport now2 l).summary.repository
      ∧ (generateStargazersReport now1 l).summary.total_stargazers =
          (generateStargazersReport now2 l).summary.total_stargazers
      ∧ (generateStargazersReport now1 l).summary.report_generated_at = now1 := by
  intro now1 now2 l
  exact ⟨rfl, rfl, rfl, rfl, rfl⟩

/-- Witness for C4 (amended): a single page with one item yields duplicate-free
logins, by the equivalence. -/
theorem getStargazers_logins_nodup_iff_witness :
    ((getStargazers [[demoItem]] none).records.map (fun r => r.login)).Nodup :=
  (getStargazers_logins_nodup_iff [[demoItem]]).mpr (by decide)

/-- Witness for C9 (amended): the statistics agree across two clock readings
on the empty input. -/
theorem report_deterministic_except_timestamp_witness :
    (generateStargazersReport 0 []).statistics =
      (generateStargazersReport 5 []).statistics :=
  (report_deterministic_except_timestamp 0 5 []).1

/-- Witness for C10: a failing per-user fetch leaves the base record
untouched, by the theorem's catch-unreachable part. -/
theorem getDetailedUserInfo_never_rejects_witness :
    enrichOne failingFetch boundaryStargazer = toEnriched boundaryStargazer :=
  (getDetailedUserInfo_never_rejects (.ok demoProfile) failingFetch
    boundaryStargazer).2.2.2 (.httpError 404 "Not Found") rfl

end GithubStargazers
